import Mathlib

/-!
# Verification of the procedural terrain / terrain-following core of "the-peak"

Shallow embedding, over exact rationals, of the terrain-generation and
vehicle terrain-following subsystem of the repository:

* `src/client/src/track/heightmapGenerator.ts` (heightmap pipeline,
  bilinear `getHeightAt`, metadata reduction),
* `src/client/src/track/roadPath.ts` (road spline samples,
  `findClosestPoint`),
* `src/client/src/physics/raycaster.ts` (`castRayDown` hit/miss contract),
* `src/client/src/physics/terrainFollower.ts` (`update`, `updateSimple`),
* `src/client/src/physics/wheelSystem.ts` (wheel-bottom offset),
* `src/client/src/utils/noise.ts` (`octaveNoise`),
* `src/client/src/config/gameConstants.ts` (the numeric constants used).

Modelling conventions:

* JavaScript `number` arithmetic is modelled with `ℚ`.  The claims under
  study are structural (which value is selected, which branch is taken,
  convex-combination bounds, argmin selection), and are invariant under
  this idealisation.
* `Math.sqrt` and `Math.atan2` are irrational-valued, so the functions
  that consume them take the corresponding real-valued routine as an
  explicit function argument (`sqrtFn`, `atan2Fn`); no theorem below
  depends on the numeric values those routines return.
* Where the code compares Euclidean distances (`Vector2.distanceTo`),
  the model compares squared distances; `sqrt` is strictly monotone on
  nonnegatives, so every comparison and every argmin below selects the
  same sample as the code.
* The JavaScript literal `Infinity` that initialises the reductions in
  `calculateMetadata` and `findClosestPoint` is modelled by `⊤` of
  `WithTop ℚ` (resp. `⊥` of `WithBot ℚ` for `-Infinity`).
* `Float32Array` grids are modelled as `List ℚ` indexed exactly as the
  source indexes (`row * (segments + 1) + col`); out-of-range reads use
  `List.getD _ 0` and every theorem's index is proved in range.
-/

/-- 3-component vector, the model of `THREE.Vector3` coordinates. -/
structure Vec3 where
  x : ℚ
  y : ℚ
  z : ℚ
deriving DecidableEq, Repr

namespace ThePeak

/-! ## Constants from `src/client/src/config/gameConstants.ts` -/

/-- `POC_TERRAIN_SIZE = 100` (gameConstants.ts). -/
def POC_TERRAIN_SIZE : ℚ := 100

/-- `POC_TERRAIN_SEGMENTS = 100` (gameConstants.ts). -/
def POC_TERRAIN_SEGMENTS : ℕ := 100

/-- `ROLLING_HILLS_NOISE_SCALE = 0.018` (gameConstants.ts). -/
def ROLLING_HILLS_NOISE_SCALE : ℚ := 18 / 1000

/-- `ROLLING_HILLS_OCTAVES = 2` (gameConstants.ts). -/
def ROLLING_HILLS_OCTAVES : ℕ := 2

/-- `ROLLING_HILLS_HEIGHT = 3` (gameConstants.ts). -/
def ROLLING_HILLS_HEIGHT : ℚ := 3

/-- `ROLLING_HILLS_BASE_ELEVATION = 2` (gameConstants.ts). -/
def ROLLING_HILLS_BASE_ELEVATION : ℚ := 2

/-- `SMOOTHING_PASSES = 4` (gameConstants.ts). -/
def SMOOTHING_PASSES : ℕ := 4

/-- `ROAD_SMOOTHING_RADIUS = 8` (gameConstants.ts). -/
def ROAD_SMOOTHING_RADIUS : ℚ := 8

/-- `ROAD_SMOOTHING_STRENGTH = 0.7` (gameConstants.ts). -/
def ROAD_SMOOTHING_STRENGTH : ℚ := 7 / 10

/-! ## `HeightmapGenerator.getHeightAt` (heightmapGenerator.ts, lines 335-374) -/

/-- `Math.floor` on a rational, computed by floor-division of the
numerator by the denominator (definitionally evaluable; equal to
`Int.floor` by `jsFloor_eq_floor`). -/
def jsFloor (q : ℚ) : ℤ := q.num.fdiv (q.den : ℤ)

theorem jsFloor_eq_floor (q : ℚ) : jsFloor q = ⌊q⌋ := by
  rw [jsFloor, Int.fdiv_eq_ediv _ (Int.natCast_nonneg q.den), ← Rat.floor_def]

/-- The grid coordinate of a world coordinate:
`(w + halfSize) / cellSize` with `halfSize = size / 2`,
`cellSize = size / segments` (heightmapGenerator.ts lines 342-347). -/
def gridCoord (w size : ℚ) (segments : ℕ) : ℚ :=
  (w + size / 2) / (size / (segments : ℚ))

/-- The bilinear-interpolation (else-) branch of `getHeightAt`
(heightmapGenerator.ts lines 358-373): fractional position within the
cell, four corner reads, two lerps along x then one along z. -/
def bilinearInterp (heightmap : List ℚ) (segments : ℕ)
    (gridX gridZ : ℚ) (col row : ℤ) : ℚ :=
  let tx : ℚ := gridX - (col : ℚ)
  let tz : ℚ := gridZ - (row : ℚ)
  let c : ℕ := col.toNat
  let r : ℕ := row.toNat
  let h00 := heightmap.getD (r * (segments + 1) + c) 0
  let h10 := heightmap.getD (r * (segments + 1) + (c + 1)) 0
  let h01 := heightmap.getD ((r + 1) * (segments + 1) + c) 0
  let h11 := heightmap.getD ((r + 1) * (segments + 1) + (c + 1)) 0
  let h0 := h00 * (1 - tx) + h10 * tx
  let h1 := h01 * (1 - tx) + h11 * tx
  h0 * (1 - tz) + h1 * tz

/-- `HeightmapGenerator.getHeightAt` (heightmapGenerator.ts lines
335-374): world position to grid cell, boundary check returning `0`
outside `0 ≤ col < segments`, `0 ≤ row < segments`, otherwise bilinear
interpolation between the four surrounding grid vertices. -/
def getHeightAt (x z : ℚ) (heightmap : List ℚ)
    (size : ℚ := POC_TERRAIN_SIZE) (segments : ℕ := POC_TERRAIN_SEGMENTS) : ℚ :=
  let gridX := gridCoord x size segments
  let gridZ := gridCoord z size segments
  let col : ℤ := jsFloor gridX
  let row : ℤ := jsFloor gridZ
  if col < 0 ∨ (segments : ℤ) ≤ col ∨ row < 0 ∨ (segments : ℤ) ≤ row then 0
  else bilinearInterp heightmap segments gridX gridZ col row

/-! ## `HeightmapGenerator.calculateMetadata` (heightmapGenerator.ts, lines 234-250) -/

/-- One step of the `minHeight` reduction: `if (h < minHeight) minHeight = h`
(heightmapGenerator.ts line 240), with `Infinity` as `⊤`. -/
def minStep (mn : WithTop ℚ) (h : ℚ) : WithTop ℚ :=
  if (h : WithTop ℚ) < mn then (h : WithTop ℚ) else mn

/-- One step of the `maxHeight` reduction: `if (h > maxHeight) maxHeight = h`
(heightmapGenerator.ts line 241), with `-Infinity` as `⊥`. -/
def maxStep (mx : WithBot ℚ) (h : ℚ) : WithBot ℚ :=
  if mx < (h : WithBot ℚ) then (h : WithBot ℚ) else mx

/-- `minHeight` of `calculateMetadata`: reduction over the finished
grid starting from `Infinity`. -/
def minHeightOf (heightmap : List ℚ) : WithTop ℚ :=
  heightmap.foldl minStep ⊤

/-- `maxHeight` of `calculateMetadata`: reduction over the finished
grid starting from `-Infinity`. -/
def maxHeightOf (heightmap : List ℚ) : WithBot ℚ :=
  heightmap.foldl maxStep ⊥

/-- `HeightmapMetadata` (heightmapGenerator.ts lines 20-25). -/
structure HeightmapMetadata where
  minHeight : WithTop ℚ
  maxHeight : WithBot ℚ
  size : ℚ
  segments : ℕ
deriving DecidableEq, Repr

/-- `HeightmapGenerator.calculateMetadata` (heightmapGenerator.ts lines 234-250). -/
def calculateMetadata (heightmap : List ℚ) (size : ℚ) (segments : ℕ) :
    HeightmapMetadata :=
  { minHeight := minHeightOf heightmap
    maxHeight := maxHeightOf heightmap
    size := size
    segments := segments }

/-! ## `RoadPath` samples and `findClosestPoint` (roadPath.ts) -/

/-- `RoadSample` (roadPath.ts lines 6-10): a pre-computed sample along
the road curve. -/
structure RoadSample where
  position : Vec3
  distance : ℚ
  tangent : Vec3
deriving DecidableEq, Repr

/-- Squared planar (XZ) distance from a query point to a sample, the
square of `queryPoint.distanceTo(samplePoint)` (roadPath.ts line 96).
`sqrt` is strictly monotone, so all comparisons on these squares select
the same sample as comparisons on the distances themselves. -/
def sqDistTo (x z : ℚ) (s : RoadSample) : ℚ :=
  (x - s.position.x) ^ 2 + (z - s.position.z) ^ 2

/-- Result record of `RoadPath.findClosestPoint` (roadPath.ts lines
82-86); `distSq` carries the squared planar distance (`⊤` models the
`Infinity` of the unreachable empty-samples fallback). -/
structure ClosestPointResult where
  closestPoint : Vec3
  distSq : WithTop ℚ
  roadElevation : ℚ
deriving DecidableEq, Repr

/-- One iteration of the `findClosestPoint` scan (roadPath.ts lines
94-102): `if (dist < minDistance) { minDistance = dist; closestSample =
sample; }` — a strict comparison, so the first sample attaining the
minimum is kept. -/
def fcpStep (x z : ℚ) (acc : WithTop ℚ × Option RoadSample) (s : RoadSample) :
    WithTop ℚ × Option RoadSample :=
  if (↑(sqDistTo x z s) : WithTop ℚ) < acc.1 then (↑(sqDistTo x z s), some s) else acc

/-- `RoadPath.findClosestPoint` (roadPath.ts lines 82-118): linear scan
over the pre-computed samples comparing planar XZ distance only, with
the `closestSample === null` fallback of lines 104-111. -/
def findClosestPoint (samples : List RoadSample) (x z : ℚ) : ClosestPointResult :=
  let acc := samples.foldl (fcpStep x z) (⊤, none)
  match acc.2 with
  | none => { closestPoint := ⟨0, 0, 0⟩, distSq := ⊤, roadElevation := 0 }
  | some s => { closestPoint := s.position, distSq := acc.1, roadElevation := s.position.y }

/-! ## The heightmap generation pipeline (heightmapGenerator.ts) -/

/-- `lerp` helper (heightmapGenerator.ts lines 255-257): `a + (b - a) * t`. -/
def hmLerp (a b t : ℚ) : ℚ := a + (b - a) * t

/-- Builds a `(segments+1) × (segments+1)` grid from a per-cell
function; the source's `for row / for col` double loop writing
`index = row * (segments + 1) + col` is modelled by mapping over all
indices and decoding `row = index / (segments+1)`,
`col = index % (segments+1)`. -/
def mkGrid (segments : ℕ) (f : ℕ → ℕ → ℚ) : List ℚ :=
  (List.range ((segments + 1) * (segments + 1))).map
    (fun index => f (index / (segments + 1)) (index % (segments + 1)))

/-- World X (resp. Z) coordinate of grid column (resp. row) `c`:
`(c / segments) * size - halfSize` (heightmapGenerator.ts lines 98-99). -/
def worldCoord (c : ℕ) (size : ℚ) (segments : ℕ) : ℚ :=
  ((c : ℚ) / (segments : ℚ)) * size - size / 2

/-- The per-cell octave accumulation of
`HeightmapGenerator.generateRollingHills` (heightmapGenerator.ts lines
102-114): `ROLLING_HILLS_OCTAVES` layers, `frequency = 2^octave`,
amplitude starting at 1 and halving each layer. -/
def rollingHillsNoise (noise2D : ℚ → ℚ → ℚ) (x z : ℚ) : ℚ :=
  (List.range ROLLING_HILLS_OCTAVES).foldl
    (fun height octave =>
      let frequency : ℚ := 2 ^ octave
      let sampleX := x * ROLLING_HILLS_NOISE_SCALE * frequency
      let sampleZ := z * ROLLING_HILLS_NOISE_SCALE * frequency
      height + noise2D sampleX sampleZ * (1 / 2 ^ octave)) 0

/-- `HeightmapGenerator.generateRollingHills` (heightmapGenerator.ts
lines 90-123): per-cell layered noise scaled by
`ROLLING_HILLS_HEIGHT` plus `ROLLING_HILLS_BASE_ELEVATION`. -/
def generateRollingHills (noise2D : ℚ → ℚ → ℚ) (size : ℚ) (segments : ℕ) : List ℚ :=
  mkGrid segments (fun row col =>
    let x := worldCoord col size segments
    let z := worldCoord row size segments
    rollingHillsNoise noise2D x z * ROLLING_HILLS_HEIGHT + ROLLING_HILLS_BASE_ELEVATION)

/-- `HeightmapGenerator.applySmoothingPass` (heightmapGenerator.ts
lines 129-162): one pass of the 3×3 kernel (center 0.25, edge 0.125,
diagonal 0.0625) on interior vertices only; boundary rows/columns are
copied unchanged.  The source's `temp` array is written only at
interior indices and read back only at interior indices, so the pass is
the pointwise map below. -/
def applySmoothingPass (heightmap : List ℚ) (segments : ℕ) : List ℚ :=
  mkGrid segments (fun row col =>
    let idx := row * (segments + 1) + col
    if 1 ≤ row ∧ row < segments ∧ 1 ≤ col ∧ col < segments then
      let c := heightmap.getD idx 0
      let n := heightmap.getD ((row - 1) * (segments + 1) + col) 0
      let s := heightmap.getD ((row + 1) * (segments + 1) + col) 0
      let e := heightmap.getD (row * (segments + 1) + (col + 1)) 0
      let w := heightmap.getD (row * (segments + 1) + (col - 1)) 0
      let ne := heightmap.getD ((row - 1) * (segments + 1) + (col + 1)) 0
      let nw := heightmap.getD ((row - 1) * (segments + 1) + (col - 1)) 0
      let se := heightmap.getD ((row + 1) * (segments + 1) + (col + 1)) 0
      let sw := heightmap.getD ((row + 1) * (segments + 1) + (col - 1)) 0
      c * (1 / 4) + (n + s + e + w) * (1 / 8) + (ne + nw + se + sw) * (1 / 16)
    else heightmap.getD idx 0)

/-- `HeightmapGenerator.applyMultipleSmoothing` (heightmapGenerator.ts
lines 167-171): `SMOOTHING_PASSES` iterated passes. -/
def applyMultipleSmoothing (heightmap : List ℚ) (segments : ℕ) : List ℚ :=
  (List.range SMOOTHING_PASSES).foldl (fun hm _ => applySmoothingPass hm segments) heightmap

/-- `HeightmapGenerator.applyEdgeFalloff` (heightmapGenerator.ts lines
265-290): cells whose normalized Chebyshev distance from center exceeds
`falloffStart = 0.7` are scaled by the cubic falloff
`1 - progress³`. -/
def applyEdgeFalloff (heightmap : List ℚ) (size : ℚ) (segments : ℕ) : List ℚ :=
  let falloffStart : ℚ := 7 / 10
  let falloffRange : ℚ := 1 - falloffStart
  mkGrid segments (fun row col =>
    let idx := row * (segments + 1) + col
    let x := worldCoord col size segments
    let z := worldCoord row size segments
    let normalizedX := |x| / (size / 2)
    let normalizedZ := |z| / (size / 2)
    let distFromCenter := max normalizedX normalizedZ
    if falloffStart < distFromCenter then
      let progress := (distFromCenter - falloffStart) / falloffRange
      let falloff := 1 - progress * progress * progress
      heightmap.getD idx 0 * falloff
    else heightmap.getD idx 0)

/-- The 3×3 in-range neighborhood mean around `(row, col)` computed by
`applyRoadSmoothing` (heightmapGenerator.ts lines 201-219), read from
the unmodified copy of the grid. -/
def neighborhoodAverage (heightmap : List ℚ) (segments : ℕ) (row col : ℕ) : ℚ :=
  let offsets : List (ℤ × ℤ) :=
    [(-1, -1), (-1, 0), (-1, 1), (0, -1), (0, 0), (0, 1), (1, -1), (1, 0), (1, 1)]
  let inRange := offsets.filter (fun d =>
    0 ≤ (row : ℤ) + d.1 ∧ (row : ℤ) + d.1 ≤ (segments : ℤ) ∧
      0 ≤ (col : ℤ) + d.2 ∧ (col : ℤ) + d.2 ≤ (segments : ℤ))
  let total := inRange.foldl (fun acc d =>
    acc + heightmap.getD (((row : ℤ) + d.1).toNat * (segments + 1) + ((col : ℤ) + d.2).toNat) 0) 0
  total / (inRange.length : ℚ)

/-- `HeightmapGenerator.applyRoadSmoothing` (heightmapGenerator.ts
lines 177-229): for cells within `ROAD_SMOOTHING_RADIUS` of the road,
blend the original height toward the 3×3 neighborhood mean with factor
`(1 - distance / ROAD_SMOOTHING_RADIUS) * ROAD_SMOOTHING_STRENGTH`.
`sqrtFn` models `Math.sqrt` (the distance returned by
`findClosestPoint` is the square root of the tracked square). -/
def applyRoadSmoothing (sqrtFn : ℚ → ℚ) (roadSamples : List RoadSample)
    (heightmap : List ℚ) (size : ℚ) (segments : ℕ) : List ℚ :=
  mkGrid segments (fun row col =>
    let index := row * (segments + 1) + col
    let x := worldCoord col size segments
    let z := worldCoord row size segments
    let res := findClosestPoint roadSamples x z
    match res.distSq with
    | none => heightmap.getD index 0
    | some dsq =>
        let distance := sqrtFn dsq
        if distance < ROAD_SMOOTHING_RADIUS then
          let originalHeight := heightmap.getD index 0
          let avgHeight := neighborhoodAverage heightmap segments row col
          let normalizedDistance := distance / ROAD_SMOOTHING_RADIUS
          let smoothFactor := (1 - normalizedDistance) * ROAD_SMOOTHING_STRENGTH
          hmLerp originalHeight avgHeight smoothFactor
        else heightmap.getD index 0)

/-- `HeightmapGenerator.generate` (heightmapGenerator.ts lines 56-84):
rolling hills, smoothing passes, edge falloff, road smoothing, then the
metadata reduction.  `noise2D` is the seeded noise function built by
the constructor (lines 41-49) from `alea(seed)` and `createNoise2D`,
both deterministic functions of the seed string; `sqrtFn` models
`Math.sqrt`. -/
def generate (noise2D : ℚ → ℚ → ℚ) (sqrtFn : ℚ → ℚ) (roadSamples : List RoadSample)
    (size : ℚ := POC_TERRAIN_SIZE) (segments : ℕ := POC_TERRAIN_SEGMENTS) :
    List ℚ × HeightmapMetadata :=
  let step1 := generateRollingHills noise2D size segments
  let step2 := applyMultipleSmoothing step1 segments
  let step3 := applyEdgeFalloff step2 size segments
  let step4 := applyRoadSmoothing sqrtFn roadSamples step3 size segments
  (step4, calculateMetadata step4 size segments)

/-! ## `NoiseGenerator.octaveNoise` (utils/noise.ts, lines 77-91) -/

/-- The accumulation loop of `octaveNoise` (noise.ts lines 83-88),
tracking `(total, frequency, amplitude, maxValue)`; the frequency is
doubled each layer (`frequency *= 2`, line 87) and the amplitude is
multiplied by `persistence` (line 86). -/
def octaveNoiseAux (noise : ℚ → ℚ → ℚ) (x y p : ℚ) :
    ℕ → ℚ → ℚ → ℚ → ℚ → ℚ × ℚ
  | 0, total, _frequency, _amplitude, maxValue => (total, maxValue)
  | n + 1, total, frequency, amplitude, maxValue =>
      octaveNoiseAux noise x y p n
        (total + noise (x * frequency) (y * frequency) * amplitude)
        (frequency * 2) (amplitude * p) (maxValue + amplitude)

/-- `NoiseGenerator.octaveNoise` (noise.ts lines 77-91): layered noise
normalized by the sum of amplitudes.  The signature has no lacunarity
parameter; the base `noise` field is the seeded Perlin sampler. -/
def octaveNoise (noise : ℚ → ℚ → ℚ) (x y : ℚ) (octaves : ℕ) (persistence : ℚ) : ℚ :=
  let r := octaveNoiseAux noise x y persistence octaves 0 1 1 0
  r.1 / r.2

/-- Modelled from the spec: the derived octave sample
`octaveSample(x, z, octaves, persistence, lacunarity)` as §4.1 words
it — `Σ noise(x·f, z·f)·a` over the layers with amplitude multiplied
by `persistence` and frequency multiplied by `lacunarity` each layer,
divided by `Σ a`.  Stated only to be compared against the
implementation `octaveNoise`. -/
def specOctaveSample (noise : ℚ → ℚ → ℚ) (x y : ℚ) (octaves : ℕ)
    (persistence lacunarity : ℚ) : ℚ :=
  (∑ i ∈ Finset.range octaves,
      noise (x * lacunarity ^ i) (y * lacunarity ^ i) * persistence ^ i) /
    (∑ i ∈ Finset.range octaves, persistence ^ i)

/-! ## `TerrainRaycaster.castRayDown` (physics/raycaster.ts, lines 67-109) -/

/-- `RaycastResult` (physics/types.ts): hit flag, intersection point,
distance. -/
structure RaycastResult where
  hit : Bool
  point : Vec3
  distance : ℚ
deriving DecidableEq, Repr

/-- `TerrainRaycaster.castRayDown` (raycaster.ts lines 67-109).  The
mesh intersection test performed by `THREE.Raycaster.intersectObject`
is external rendering-library geometry; it is abstracted as
`intersection : Option (ℚ × ℚ)` carrying the first hit's `(point.y,
distance)` for the vertical ray through `(x, z)` (a vertical ray's hit
point has the ray's own x and z).  On a miss the source returns
`hit: false`, `point := (x, 0, z)`, `distance := -1` (lines 102-108). -/
def castRayDown (intersection : Option (ℚ × ℚ)) (x z : ℚ) : RaycastResult :=
  match intersection with
  | some (py, dist) => { hit := true, point := ⟨x, py, z⟩, distance := dist }
  | none => { hit := false, point := ⟨x, 0, z⟩, distance := -1 }

/-! ## `WheelSystem` (physics/wheelSystem.ts) -/

/-- `WheelSystem.calculateWheelBottomOffset` (wheelSystem.ts lines
139-160): average of the wheel bounding-box center heights minus the
wheel radius; if no wheels were detected the early `return` leaves the
offset at its initial `0`. -/
def calculateWheelBottomOffset (wheelCenterYs : List ℚ) (wheelRadius : ℚ) : ℚ :=
  if wheelCenterYs = [] then 0
  else wheelCenterYs.sum / (wheelCenterYs.length : ℚ) - wheelRadius

/-- The result of `WheelSystem.getWheelIndicesByPosition`
(wheelSystem.ts lines 249-329): indices into the wheel array for each
corner, or `null` when a corner has no wheel. -/
structure WheelIndices where
  frontLeft : Option ℕ
  frontRight : Option ℕ
  backLeft : Option ℕ
  backRight : Option ℕ
deriving DecidableEq, Repr

/-- The result of `WheelSystem.getWheelDimensions` (wheelSystem.ts
lines 336-381). -/
structure WheelDimensions where
  wheelbase : ℚ
  trackWidth : ℚ
deriving DecidableEq, Repr

/-! ## `TerrainFollower` (physics/terrainFollower.ts) -/

/-- `TerrainFollowOptions` with the defaults of `DEFAULT_OPTIONS`
(terrainFollower.ts lines 10-17) filled in by `defaultOptions`. -/
structure TerrainFollowOptions where
  enableRotation : Bool
  heightSmoothing : ℚ
  rotationSmoothing : ℚ
  heightOffset : ℚ
  maxPitchAngle : ℚ
  maxRollAngle : ℚ
deriving DecidableEq, Repr

/-- `DEFAULT_OPTIONS` (terrainFollower.ts lines 10-17).  `Math.PI` is
irrational, so the value of π used for the (rotation-disabled-only)
angle caps is taken as an argument `piQ`. -/
def defaultOptions (piQ : ℚ) : TerrainFollowOptions :=
  { enableRotation := false
    heightSmoothing := 0
    rotationSmoothing := 0
    heightOffset := 0
    maxPitchAngle := piQ / 4
    maxRollAngle := piQ / 3 }

/-- `THREE.MathUtils.clamp(value, min, max) = Math.max(min, Math.min(max, value))`. -/
def clampQ (value lo hi : ℚ) : ℚ := max lo (min hi value)

/-- `THREE.MathUtils.lerp(x, y, t) = x + (y - x) * t`. -/
def lerpQ (a b t : ℚ) : ℚ := a + (b - a) * t

/-- The mutable transform state of the vehicle model that
`TerrainFollower.update` writes: `position.y`, `rotation.x` (roll) and
`rotation.z` (pitch). -/
structure ModelState where
  posY : ℚ
  rotX : ℚ
  rotZ : ℚ
deriving DecidableEq, Repr

/-- The follower's persistent smoothing state (`currentPitch`,
`currentRoll`, terrainFollower.ts lines 39-40). -/
structure FollowerState where
  currentPitch : ℚ
  currentRoll : ℚ
deriving DecidableEq, Repr

/-- Result of one `update` call: the new model transform and the new
follower smoothing state. -/
structure UpdateResult where
  model : ModelState
  follower : FollowerState
deriving DecidableEq, Repr

/-- The ground height `update` stores per wheel:
`result.hit ? result.point.y : 0` (terrainFollower.ts line 106). -/
def groundHeightUsed (r : RaycastResult) : ℚ :=
  if r.hit then r.point.y else 0

/-- The pitch/roll stage of `TerrainFollower.update` (terrainFollower.ts
lines 140-218): entered only when rotation following is enabled and at
least 4 wheels exist, and only when `getWheelDimensions` returned a
value with `wheelbase > 0 && trackWidth > 0` (line 147); pitch and roll
come from the wheel-pair height differentials through `Math.atan2`
(modelled by `atan2Fn`), clamped to the configured maxima and
optionally smoothed. -/
def rotationStep (options : TerrainFollowOptions) (raycastResults : List ℚ)
    (wheelCount : ℕ) (indices : WheelIndices)
    (dimensions : Option WheelDimensions) (atan2Fn : ℚ → ℚ → ℚ)
    (model1 : ModelState) (follower : FollowerState) : UpdateResult :=
  if options.enableRotation ∧ 4 ≤ wheelCount then
    match dimensions with
    | some dims =>
        if 0 < dims.wheelbase ∧ 0 < dims.trackWidth then
          let targetPitch :=
            match indices.frontLeft, indices.frontRight, indices.backLeft, indices.backRight with
            | some fl, some fr, some bl, some br =>
                let frontAvgHeight := (raycastResults.getD fl 0 + raycastResults.getD fr 0) / 2
                let backAvgHeight := (raycastResults.getD bl 0 + raycastResults.getD br 0) / 2
                clampQ (atan2Fn (frontAvgHeight - backAvgHeight) dims.wheelbase)
                  (-options.maxPitchAngle) options.maxPitchAngle
            | _, _, _, _ => 0
          let targetRoll :=
            match indices.frontLeft, indices.frontRight, indices.backLeft, indices.backRight with
            | some fl, some fr, some bl, some br =>
                let leftAvgHeight := (raycastResults.getD fl 0 + raycastResults.getD bl 0) / 2
                let rightAvgHeight := (raycastResults.getD fr 0 + raycastResults.getD br 0) / 2
                clampQ (atan2Fn (rightAvgHeight - leftAvgHeight) dims.trackWidth)
                  (-options.maxRollAngle) options.maxRollAngle
            | _, _, _, _ => 0
          let newPitch :=
            if 0 < options.rotationSmoothing then
              lerpQ follower.currentPitch targetPitch options.rotationSmoothing
            else targetPitch
          let newRoll :=
            if 0 < options.rotationSmoothing then
              lerpQ follower.currentRoll targetRoll options.rotationSmoothing
            else targetRoll
          { model := { model1 with rotX := newRoll, rotZ := newPitch }
            follower := { currentPitch := newPitch, currentRoll := newRoll } }
        else { model := model1, follower := follower }
    | none => { model := model1, follower := follower }
  else { model := model1, follower := follower }

/-- `TerrainFollower.update` (terrainFollower.ts lines 82-219).
`results` are the per-wheel `castRayDown` results (line 100);
`indices` and `dimensions` are what `wheelSystem.getWheelIndicesByPosition`
and `wheelSystem.getWheelDimensions` return for the model (lines
142-145); `atan2Fn` models `Math.atan2`.  Structure: per-wheel ground
heights (`groundHeightUsed`), average, target height with optional
smoothing applied to `position.y`, then the rotation stage
(`rotationStep`). -/
def update (options : TerrainFollowOptions) (results : List RaycastResult)
    (wheelBottomOffset : ℚ) (indices : WheelIndices)
    (dimensions : Option WheelDimensions) (atan2Fn : ℚ → ℚ → ℚ)
    (model : ModelState) (follower : FollowerState) : UpdateResult :=
  let wheelCount := results.length
  let raycastResults := results.map groundHeightUsed
  let totalHeight := raycastResults.sum
  let avgGroundHeight := totalHeight / (wheelCount : ℚ)
  let targetY0 := avgGroundHeight - wheelBottomOffset + options.heightOffset
  let targetY :=
    if 0 < options.heightSmoothing then lerpQ model.posY targetY0 options.heightSmoothing
    else targetY0
  let model1 : ModelState := { model with posY := targetY }
  rotationStep options raycastResults wheelCount indices dimensions atan2Fn model1 follower

/-- `TerrainFollower.updateSimple` (terrainFollower.ts lines 227-243):
raycast at the model's planar position; on hit use the hit height, on
miss fall back to `terrain.getHeightAt`. -/
def updateSimple (intersection : Option (ℚ × ℚ)) (heightAtFn : ℚ → ℚ → ℚ)
    (x z heightOffset : ℚ) : ℚ :=
  let result := castRayDown intersection x z
  if result.hit then result.point.y + heightOffset
  else heightAtFn x z + heightOffset

/-- `TerrainFollower.getGroundHeightAt` (terrainFollower.ts lines
251-254): raycast, falling back to `terrain.getHeightAt` on a miss. -/
def followerGroundHeightAt (intersection : Option (ℚ × ℚ))
    (heightAtFn : ℚ → ℚ → ℚ) (x z : ℚ) : ℚ :=
  let result := castRayDown intersection x z
  if result.hit then result.point.y else heightAtFn x z

/-! ## `RoadPath` construction (roadPath.ts, lines 26-55) and the
three.js `CatmullRomCurve3` it evaluates

`RoadPath`'s constructor builds `new THREE.CatmullRomCurve3(points,
false, 'catmullrom', 0.5)` and immediately samples it (`getLength`,
then `precomputeSamples`).  The curve evaluation lives in the three.js
dependency; it is modelled here from the three.js
`CatmullRomCurve3.getPoint` / `Curve.getTangent` / `Curve.getLengths`
sources.  A JavaScript element access past the end of the `points`
array yields `undefined`, and the subsequent component read throws a
generic `TypeError`; that runtime failure is modelled by
`JsRuntimeError.undefinedAccess`. -/

/-- The generic JavaScript runtime failure (`TypeError: cannot read
properties of undefined`) raised when curve evaluation touches a
missing control point.  There is no other error constructor because
neither `RoadPath` nor `HeightmapGenerator` contains any validation
`throw`. -/
inductive JsRuntimeError where
  | undefinedAccess
deriving DecidableEq, Repr

/-- Componentwise `a - b` (`Vector3.subVectors`). -/
def vsub (a b : Vec3) : Vec3 := ⟨a.x - b.x, a.y - b.y, a.z - b.z⟩

/-- Componentwise `a + b` (`Vector3.add`). -/
def vadd (a b : Vec3) : Vec3 := ⟨a.x + b.x, a.y + b.y, a.z + b.z⟩

/-- Array element access `points[i]`: `undefined` (here: the modelled
`TypeError` at the point of use) outside the valid range. -/
def jsGet (points : List Vec3) (i : ℤ) : Except JsRuntimeError Vec3 :=
  if h : 0 ≤ i ∧ i.toNat < points.length then
    Except.ok (points.get ⟨i.toNat, h.2⟩)
  else Except.error JsRuntimeError.undefinedAccess

/-- The cubic polynomial of three.js' `CubicPoly.init`. -/
structure CubicPoly where
  c0 : ℚ
  c1 : ℚ
  c2 : ℚ
  c3 : ℚ
deriving DecidableEq, Repr

/-- three.js `CubicPoly.initCatmullRom(x0, x1, x2, x3, tension)`:
`init(x1, x2, tension·(x2−x0), tension·(x3−x1))` with
`init(x0, x1, t0, t1)` giving coefficients
`(x0, t0, −3x0+3x1−2t0−t1, 2x0−2x1+t0+t1)`. -/
def CubicPoly.initCatmullRom (x0 x1 x2 x3 tension : ℚ) : CubicPoly :=
  let t0 := tension * (x2 - x0)
  let t1 := tension * (x3 - x1)
  { c0 := x1, c1 := t0, c2 := -3 * x1 + 3 * x2 - 2 * t0 - t1, c3 := 2 * x1 - 2 * x2 + t0 + t1 }

/-- three.js `CubicPoly.calc(t) = c0 + c1·t + c2·t² + c3·t³`. -/
def CubicPoly.calc (p : CubicPoly) (t : ℚ) : ℚ :=
  p.c0 + p.c1 * t + p.c2 * t ^ 2 + p.c3 * t ^ 3

/-- three.js `CatmullRomCurve3.getPoint(t)` for a non-closed
`'catmullrom'` curve with the given tension: segment selection with the
`weight == 0 && intPoint == l − 1` endpoint rebranch, endpoint
extrapolation `2·points[0] − points[1]` (resp. at the tail), and the
three per-axis cubics. -/
def catmullRomGetPoint (points : List Vec3) (tension t : ℚ) :
    Except JsRuntimeError Vec3 := do
  let l : ℤ := points.length
  let pr : ℚ := ((points.length : ℚ) - 1) * t
  let ip0 : ℤ := jsFloor pr
  let w0 : ℚ := pr - ip0
  let ip : ℤ := if w0 = 0 ∧ ip0 = l - 1 then l - 2 else ip0
  let w : ℚ := if w0 = 0 ∧ ip0 = l - 1 then 1 else w0
  let p0 ←
    if 0 < ip then jsGet points ((ip - 1) % l)
    else do
      let a ← jsGet points 0
      let b ← jsGet points 1
      pure (vadd (vsub a b) a)
  let p1 ← jsGet points (ip % l)
  let p2 ← jsGet points ((ip + 1) % l)
  let p3 ←
    if ip + 2 < l then jsGet points ((ip + 2) % l)
    else do
      let a ← jsGet points (l - 1)
      let b ← jsGet points (l - 2)
      pure (vadd (vsub a b) a)
  let px := CubicPoly.initCatmullRom p0.x p1.x p2.x p3.x tension
  let py := CubicPoly.initCatmullRom p0.y p1.y p2.y p3.y tension
  let pz := CubicPoly.initCatmullRom p0.z p1.z p2.z p3.z tension
  pure ⟨px.calc w, py.calc w, pz.calc w⟩

/-- three.js `Curve.getLengths(200)` summed to `getLength()`:
cumulative chordal length over 200 subdivisions (`sqrtFn` models
`Math.sqrt`). -/
def curveGetLength (points : List Vec3) (tension : ℚ) (sqrtFn : ℚ → ℚ)
    (divisions : ℕ := 200) : Except JsRuntimeError ℚ := do
  let first ← catmullRomGetPoint points tension 0
  let r ← (List.range divisions).foldlM
    (fun (acc : ℚ × Vec3) i => do
      let current ← catmullRomGetPoint points tension (((i : ℚ) + 1) / (divisions : ℚ))
      let d := vsub current acc.2
      pure (acc.1 + sqrtFn (d.x ^ 2 + d.y ^ 2 + d.z ^ 2), current))
    ((0 : ℚ), first)
  pure r.1

/-- three.js `Curve.getTangent(t)`: central difference at `±0.0001`
(clamped to `[0, 1]`), normalized; `Vector3.normalize` divides by
`length || 1`, so a zero-length delta is returned unchanged. -/
def curveGetTangent (points : List Vec3) (tension : ℚ) (sqrtFn : ℚ → ℚ)
    (t : ℚ) : Except JsRuntimeError Vec3 := do
  let delta : ℚ := 1 / 10000
  let t1 : ℚ := max (t - delta) 0
  let t2 : ℚ := min (t + delta) 1
  let pt1 ← catmullRomGetPoint points tension t1
  let pt2 ← catmullRomGetPoint points tension t2
  let d := vsub pt2 pt1
  let len := sqrtFn (d.x ^ 2 + d.y ^ 2 + d.z ^ 2)
  let len1 := if len = 0 then 1 else len
  pure ⟨d.x / len1, d.y / len1, d.z / len1⟩

/-- The `RoadPath` constructor (roadPath.ts lines 26-37) together with
`precomputeSamples` (lines 42-55): builds the non-closed Catmull-Rom
curve with tension 0.5, takes its arc length, and precomputes
`sampleCount + 1` samples `⟨position, t·totalLength, tangent⟩`.  It
performs no input validation of its own; the only failure mode is the
modelled `TypeError` escaping from the curve evaluation. -/
def roadPathConstruct (controlPoints : List Vec3) (sampleCount : ℕ)
    (sqrtFn : ℚ → ℚ) : Except JsRuntimeError (List RoadSample) := do
  let totalLength ← curveGetLength controlPoints (1 / 2) sqrtFn
  (List.range (sampleCount + 1)).mapM (fun i => do
    let t : ℚ := (i : ℚ) / (sampleCount : ℚ)
    let position ← catmullRomGetPoint controlPoints (1 / 2) t
    let tangent ← curveGetTangent controlPoints (1 / 2) sqrtFn t
    pure { position := position, distance := t * totalLength, tangent := tangent })

/-! ## Shared grid lemmas -/

theorem mkGrid_length (segments : ℕ) (f : ℕ → ℕ → ℚ) :
    (mkGrid segments f).length = (segments + 1) * (segments + 1) := by
  simp [mkGrid]

theorem mkGrid_getD (segments : ℕ) (f : ℕ → ℕ → ℚ) (row col : ℕ)
    (hrow : row ≤ segments) (hcol : col ≤ segments) :
    (mkGrid segments f).getD (row * (segments + 1) + col) 0 = f row col := by
  have hidx : row * (segments + 1) + col < (segments + 1) * (segments + 1) := by
    have h1 : row * (segments + 1) ≤ segments * (segments + 1) :=
      Nat.mul_le_mul_right _ hrow
    have h2 : col < segments + 1 := Nat.lt_succ_of_le hcol
    calc row * (segments + 1) + col < row * (segments + 1) + (segments + 1) := by omega
      _ = (row + 1) * (segments + 1) := by ring
      _ ≤ (segments + 1) * (segments + 1) := Nat.mul_le_mul_right _ (by omega)
  have hcomm : row * (segments + 1) + col = col + row * (segments + 1) := by ring
  unfold mkGrid
  rw [List.getD_eq_getElem?_getD, List.getElem?_map, List.getElem?_range hidx]
  have hdiv : (row * (segments + 1) + col) / (segments + 1) = row := by
    rw [hcomm, Nat.add_mul_div_right _ _ (Nat.succ_pos segments),
      Nat.div_eq_of_lt (Nat.lt_succ_of_le hcol), Nat.zero_add]
  have hmod : (row * (segments + 1) + col) % (segments + 1) = col := by
    rw [hcomm, Nat.add_mul_mod_self_right, Nat.mod_eq_of_lt (Nat.lt_succ_of_le hcol)]
  simp [hdiv, hmod]

/-! ## C1 — determinism of heightmap generation -/

/-- C1: terrain generation is deterministic.  The embedded pipeline
`generate` is a pure function of the seeded noise function (itself a
deterministic function of the seed string via `alea` and
`createNoise2D`), the square-root routine, the road samples and the
grid geometry: two independent runs on equal inputs produce equal
grids, value for value. -/
theorem generate_deterministic (noise₁ noise₂ : ℚ → ℚ → ℚ) (sqrt₁ sqrt₂ : ℚ → ℚ)
    (road₁ road₂ : List RoadSample) (size₁ size₂ : ℚ) (seg₁ seg₂ : ℕ)
    (hn : noise₁ = noise₂) (hs : sqrt₁ = sqrt₂) (hr : road₁ = road₂)
    (hsz : size₁ = size₂) (hsg : seg₁ = seg₂) :
    generate noise₁ sqrt₁ road₁ size₁ seg₁ = generate noise₂ sqrt₂ road₂ size₂ seg₂ ∧
    ∀ i : ℕ, (generate noise₁ sqrt₁ road₁ size₁ seg₁).1.getD i 0 =
      (generate noise₂ sqrt₂ road₂ size₂ seg₂).1.getD i 0 := by
  subst hn hs hr hsz hsg
  exact ⟨rfl, fun _ => rfl⟩

theorem generate_deterministic_witness :
    ((fun a b : ℚ => a + b) = (fun a b : ℚ => a + b) ∧ (id : ℚ → ℚ) = id ∧
      ([] : List RoadSample) = [] ∧ (2 : ℚ) = 2 ∧ (1 : ℕ) = 1) ∧
    (generate (fun a b => a + b) id [] 2 1 = generate (fun a b => a + b) id [] 2 1 ∧
      ∀ i : ℕ, (generate (fun a b => a + b) id [] 2 1).1.getD i 0 =
        (generate (fun a b => a + b) id [] 2 1).1.getD i 0) :=
  ⟨⟨rfl, rfl, rfl, rfl, rfl⟩,
    generate_deterministic (fun a b => a + b) (fun a b => a + b) id id [] [] 2 2 1 1
      rfl rfl rfl rfl rfl⟩


/-! ## C3 — behaviour of `TerrainFollower.update` on a raycast miss -/

/-- C3 counterexample: in `update`, a wheel whose raycast misses
contributes ground height `0` to the average, not the terrain's
`heightAt` value.  Over a flat heightmap of constant height 5 the
`heightAt` value at the wheel position `(0, 0)` is `5`, yet the height
used is `0`; with four missing wheels and wheel-bottom offset 1 the
vehicle is placed at `0 - 1 = -1`, not at `5 - 1`. -/
theorem update_miss_counterexample :
    groundHeightUsed (castRayDown none 0 0) = 0 ∧
    getHeightAt 0 0 [5, 5, 5, 5] 2 1 = 5 ∧
    groundHeightUsed (castRayDown none 0 0) ≠ getHeightAt 0 0 [5, 5, 5, 5] 2 1 ∧
    (update (defaultOptions 3) (List.replicate 4 (castRayDown none 0 0)) 1
        ⟨none, none, none, none⟩ none (fun a b => a / b) ⟨0, 0, 0⟩ ⟨0, 0⟩).model.posY = -1 := by
  have h5 : getHeightAt 0 0 [5, 5, 5, 5] 2 1 = 5 := by
    norm_num [getHeightAt, gridCoord, bilinearInterp, jsFloor_eq_floor]
  refine ⟨rfl, h5, ?_, ?_⟩
  · rw [h5]
    norm_num [groundHeightUsed, castRayDown]
  · norm_num [update, rotationStep, groundHeightUsed, castRayDown, defaultOptions,
      lerpQ, List.replicate]

/-- C3 (amended): on a raycast miss `update` uses the fixed fallback
height `0` (the `y` of the miss result's synthetic point) for that
wheel in the average; the fall-back-to-`heightAt` behaviour exists in
the follower's `updateSimple` and `getGroundHeightAt` paths, not in
`update`. -/
theorem update_miss_uses_zero (results : List RaycastResult) (i : ℕ)
    (hi : i < results.length) (hmiss : (results.get ⟨i, hi⟩).hit = false)
    (heightAtFn : ℚ → ℚ → ℚ) (x z heightOffset : ℚ) :
    (results.map groundHeightUsed).getD i 0 = 0 ∧
    updateSimple none heightAtFn x z heightOffset = heightAtFn x z + heightOffset ∧
    followerGroundHeightAt none heightAtFn x z = heightAtFn x z := by
  refine ⟨?_, rfl, rfl⟩
  have hm : results[i].hit = false := hmiss
  rw [List.getD_eq_getElem?_getD, List.getElem?_map, List.getElem?_eq_getElem hi]
  simp [groundHeightUsed, hm]

theorem update_miss_uses_zero_witness :
    (0 : ℕ) < [castRayDown none 3 4].length ∧
    ([castRayDown none 3 4].get ⟨0, by norm_num⟩).hit = false ∧
    (([castRayDown none 3 4].map groundHeightUsed).getD 0 0 = 0 ∧
      updateSimple none (fun _ _ => (5 : ℚ)) 3 4 0 = (fun _ _ => (5 : ℚ)) 3 4 + 0 ∧
      followerGroundHeightAt none (fun _ _ => (5 : ℚ)) 3 4 = (fun _ _ => (5 : ℚ)) 3 4) :=
  ⟨by norm_num, rfl,
    update_miss_uses_zero [castRayDown none 3 4] 0 (by norm_num) rfl
      (fun _ _ => (5 : ℚ)) 3 4 0⟩

/-! ## C4 — the road-smoothing blend factor -/

/-- The per-cell form of `applyRoadSmoothing` (heightmapGenerator.ts
lines 186-227) for a cell within the smoothing radius: the new height
is `lerp(original, neighborhoodMean, (1 − d/radius) · strength)`. -/
theorem applyRoadSmoothing_getD (sqrtFn : ℚ → ℚ) (roadSamples : List RoadSample)
    (heightmap : List ℚ) (size : ℚ) (segments : ℕ) (row col : ℕ)
    (hrow : row ≤ segments) (hcol : col ≤ segments) (dsq : ℚ)
    (hd : (findClosestPoint roadSamples (worldCoord col size segments)
        (worldCoord row size segments)).distSq = (dsq : WithTop ℚ))
    (hlt : sqrtFn dsq < ROAD_SMOOTHING_RADIUS) :
    (applyRoadSmoothing sqrtFn roadSamples heightmap size segments).getD
        (row * (segments + 1) + col) 0 =
      hmLerp (heightmap.getD (row * (segments + 1) + col) 0)
        (neighborhoodAverage heightmap segments row col)
        ((1 - sqrtFn dsq / ROAD_SMOOTHING_RADIUS) * ROAD_SMOOTHING_STRENGTH) := by
  unfold applyRoadSmoothing
  rw [mkGrid_getD _ _ _ _ hrow hcol]
  simp only [hd, hlt, if_true]

/-- C4 counterexample: in `applyRoadSmoothing` the blend factor for a
cell lying exactly on the road (planar distance 0) is
`ROAD_SMOOTHING_STRENGTH = 0.7`, not `1`.  On a 2×2 grid `[0, 1, 1, 1]`
(size 2, segments 1) with a road sample exactly at the world position
`(-1, -1)` of cell `(0, 0)`, the neighborhood mean is `3/4` but the
blended height is `lerp 0 (3/4) 0.7 = 21/40`; a blend factor of
`1 − (d/r)^strength = 1` at `d = 0` would give `3/4`. -/
theorem road_blend_counterexample :
    sqDistTo (worldCoord 0 2 1) (worldCoord 0 2 1) ⟨⟨-1, 0, -1⟩, 0, ⟨1, 0, 0⟩⟩ = 0 ∧
    neighborhoodAverage [0, 1, 1, 1] 1 0 0 = 3 / 4 ∧
    (applyRoadSmoothing id [⟨⟨-1, 0, -1⟩, 0, ⟨1, 0, 0⟩⟩] [0, 1, 1, 1] 2 1).getD 0 0 =
      21 / 40 ∧
    (21 / 40 : ℚ) ≠ 3 / 4 := by
  have hfcp : (findClosestPoint [⟨⟨-1, 0, -1⟩, 0, ⟨1, 0, 0⟩⟩] (worldCoord 0 2 1)
      (worldCoord 0 2 1)).distSq = ((0 : ℚ) : WithTop ℚ) := by
    norm_num [findClosestPoint, fcpStep, sqDistTo, worldCoord]
  have h := applyRoadSmoothing_getD id [⟨⟨-1, 0, -1⟩, 0, ⟨1, 0, 0⟩⟩] [0, 1, 1, 1] 2 1 0 0
    (by norm_num) (by norm_num) 0 hfcp (by norm_num [ROAD_SMOOTHING_RADIUS])
  simp only [Nat.zero_mul, Nat.add_zero, Nat.zero_add] at h
  refine ⟨by norm_num [sqDistTo, worldCoord], ?_, ?_, by norm_num⟩
  · norm_num [neighborhoodAverage, List.filter]
  · rw [h]
    norm_num [hmLerp, neighborhoodAverage, List.filter, ROAD_SMOOTHING_RADIUS,
      ROAD_SMOOTHING_STRENGTH]

/-- C4 (amended): for a grid cell whose planar distance `d` to the road
is within `ROAD_SMOOTHING_RADIUS = 8`, `applyRoadSmoothing` blends the
cell's height toward its 3×3 neighborhood mean with factor
`(1 − d/8) · ROAD_SMOOTHING_STRENGTH` — a linear decay scaled by the
strength `0.7`, equal to `0.7` (not 1) at `d = 0` and reaching `0` at
`d = 8`. -/
theorem road_blend_factor (sqrtFn : ℚ → ℚ) (roadSamples : List RoadSample)
    (heightmap : List ℚ) (size : ℚ) (segments : ℕ) (row col : ℕ)
    (hrow : row ≤ segments) (hcol : col ≤ segments) (dsq : ℚ)
    (hd : (findClosestPoint roadSamples (worldCoord col size segments)
        (worldCoord row size segments)).distSq = (dsq : WithTop ℚ))
    (hlt : sqrtFn dsq < ROAD_SMOOTHING_RADIUS) :
    (applyRoadSmoothing sqrtFn roadSamples heightmap size segments).getD
        (row * (segments + 1) + col) 0 =
      hmLerp (heightmap.getD (row * (segments + 1) + col) 0)
        (neighborhoodAverage heightmap segments row col)
        ((1 - sqrtFn dsq / ROAD_SMOOTHING_RADIUS) * ROAD_SMOOTHING_STRENGTH) ∧
    (1 - (0 : ℚ) / ROAD_SMOOTHING_RADIUS) * ROAD_SMOOTHING_STRENGTH = 7 / 10 ∧
    (1 - ROAD_SMOOTHING_RADIUS / ROAD_SMOOTHING_RADIUS) * ROAD_SMOOTHING_STRENGTH = 0 :=
  ⟨applyRoadSmoothing_getD sqrtFn roadSamples heightmap size segments row col
      hrow hcol dsq hd hlt,
    by norm_num [ROAD_SMOOTHING_RADIUS, ROAD_SMOOTHING_STRENGTH],
    by norm_num [ROAD_SMOOTHING_RADIUS, ROAD_SMOOTHING_STRENGTH]⟩

theorem road_blend_factor_witness :
    ((0 : ℕ) ≤ 1 ∧ (0 : ℕ) ≤ 1 ∧
      (findClosestPoint [⟨⟨-2, 0, -2⟩, 0, ⟨1, 0, 0⟩⟩] (worldCoord 0 4 1)
          (worldCoord 0 4 1)).distSq = ((0 : ℚ) : WithTop ℚ) ∧
      id (0 : ℚ) < ROAD_SMOOTHING_RADIUS) ∧
    ((applyRoadSmoothing id [⟨⟨-2, 0, -2⟩, 0, ⟨1, 0, 0⟩⟩] [2, 6, 6, 6] 4 1).getD
        (0 * (1 + 1) + 0) 0 =
      hmLerp (([2, 6, 6, 6] : List ℚ).getD (0 * (1 + 1) + 0) 0)
        (neighborhoodAverage [2, 6, 6, 6] 1 0 0)
        ((1 - id (0 : ℚ) / ROAD_SMOOTHING_RADIUS) * ROAD_SMOOTHING_STRENGTH) ∧
      (1 - (0 : ℚ) / ROAD_SMOOTHING_RADIUS) * ROAD_SMOOTHING_STRENGTH = 7 / 10 ∧
      (1 - ROAD_SMOOTHING_RADIUS / ROAD_SMOOTHING_RADIUS) * ROAD_SMOOTHING_STRENGTH = 0) :=
  ⟨⟨Nat.zero_le 1, Nat.zero_le 1,
      by norm_num [findClosestPoint, fcpStep, sqDistTo, worldCoord],
      by norm_num [ROAD_SMOOTHING_RADIUS]⟩,
    road_blend_factor id [⟨⟨-2, 0, -2⟩, 0, ⟨1, 0, 0⟩⟩] [2, 6, 6, 6] 4 1 0 0
      (Nat.zero_le 1) (Nat.zero_le 1) 0
      (by norm_num [findClosestPoint, fcpStep, sqDistTo, worldCoord])
      (by norm_num [ROAD_SMOOTHING_RADIUS])⟩

/-! ## C5 — flat-terrain end-to-end behaviour of `update` -/

/-- C5: with the default options (rotation following disabled, no
height smoothing, zero height offset) and four wheels whose raycasts
all hit a flat terrain at height 5, `update` places the vehicle at
exactly `5 − wheelBottomOffset` — the average ground height minus the
offset computed by `WheelSystem.calculateWheelBottomOffset` — and
leaves pitch and roll at 0. -/
theorem update_flat_terrain (piQ radius : ℚ) (centerYs : List ℚ)
    (indices : WheelIndices) (dims : Option WheelDimensions) (atan2Fn : ℚ → ℚ → ℚ)
    (y0 : ℚ) (fs : FollowerState) (results : List RaycastResult)
    (hlen : results.length = 4) (hall : ∀ r ∈ results, r.hit = true ∧ r.point.y = 5) :
    (update (defaultOptions piQ) results (calculateWheelBottomOffset centerYs radius)
        indices dims atan2Fn ⟨y0, 0, 0⟩ fs).model =
      ⟨5 - calculateWheelBottomOffset centerYs radius, 0, 0⟩ := by
  have hmap : results.map groundHeightUsed = List.replicate 4 (5 : ℚ) := by
    rw [← hlen, ← List.length_map results groundHeightUsed]
    apply List.eq_replicate_of_mem
    intro b hb
    obtain ⟨r, hr, rfl⟩ := List.mem_map.mp hb
    obtain ⟨hhit, hy⟩ := hall r hr
    simp [groundHeightUsed, hhit, hy]
  unfold update rotationStep
  rw [hmap, hlen]
  simp [defaultOptions, List.sum_replicate]
  norm_num

theorem update_flat_terrain_witness :
    ((List.replicate 4 (castRayDown (some (5, 45)) 0 0)).length = 4 ∧
      ∀ r ∈ List.replicate 4 (castRayDown (some (5, 45)) 0 0),
        r.hit = true ∧ r.point.y = 5) ∧
    (update (defaultOptions 3) (List.replicate 4 (castRayDown (some (5, 45)) 0 0))
        (calculateWheelBottomOffset [1, 1, 1, 1] (1 / 3))
        ⟨none, none, none, none⟩ none (fun a b => a / b) ⟨7, 0, 0⟩ ⟨0, 0⟩).model =
      ⟨5 - calculateWheelBottomOffset [1, 1, 1, 1] (1 / 3), 0, 0⟩ :=
  ⟨⟨rfl, by intro r hr; simp [List.eq_of_mem_replicate hr, castRayDown]⟩,
    update_flat_terrain 3 (1 / 3) [1, 1, 1, 1] ⟨none, none, none, none⟩ none
      (fun a b => a / b) 7 ⟨0, 0⟩ (List.replicate 4 (castRayDown (some (5, 45)) 0 0))
      rfl (by intro r hr; simp [List.eq_of_mem_replicate hr, castRayDown])⟩

/-! ## C6 — degenerate construction inputs -/

/-- C6 counterexample: constructing the road spline from a single
control point (or from none) does not fail with a descriptive
validation error — there is no validation code in the `RoadPath`
constructor — it fails with the generic runtime `TypeError`
(`undefinedAccess`) thrown inside the three.js curve evaluation when it
reads the missing second control point. -/
theorem roadpath_degenerate_counterexample :
    roadPathConstruct [⟨0, 0, 0⟩] 1000 id =
      Except.error JsRuntimeError.undefinedAccess ∧
    roadPathConstruct [] 1000 id = Except.error JsRuntimeError.undefinedAccess := by
  constructor
  · have h : catmullRomGetPoint [(⟨0, 0, 0⟩ : Vec3)] (1 / 2) 0 =
        Except.error JsRuntimeError.undefinedAccess := by
      norm_num [catmullRomGetPoint, jsGet, jsFloor_eq_floor]
      rfl
    unfold roadPathConstruct curveGetLength
    rw [h]
    rfl
  · have h : catmullRomGetPoint ([] : List Vec3) (1 / 2) 0 =
        Except.error JsRuntimeError.undefinedAccess := by
      norm_num [catmullRomGetPoint, jsGet, jsFloor_eq_floor]
      rfl
    unfold roadPathConstruct curveGetLength
    rw [h]
    rfl

/-- C6 (amended): there is no fail-fast validation.  A road spline
built from fewer than 2 control points fails only with the generic
undefined-access `TypeError` arising inside the external curve code
(not a descriptive validation error raised by this repository's
constructors), and the heightmap generator performs no input validation
at all: its `generate` runs to completion on every input — producing a
full `(segments+1)²` grid even for degenerate geometry — and its size
and segment count are fixed constants `100`/`100`, never checked. -/
theorem degenerate_construction_behaviour (p : Vec3) (sqrtFn : ℚ → ℚ) (count : ℕ)
    (noise2D : ℚ → ℚ → ℚ) (roadSamples : List RoadSample) (size : ℚ) (segments : ℕ) :
    roadPathConstruct [p] count sqrtFn = Except.error JsRuntimeError.undefinedAccess ∧
    roadPathConstruct [] count sqrtFn = Except.error JsRuntimeError.undefinedAccess ∧
    (generate noise2D sqrtFn roadSamples size segments).1.length =
      (segments + 1) * (segments + 1) ∧
    POC_TERRAIN_SIZE = 100 ∧ POC_TERRAIN_SEGMENTS = 100 := by
  refine ⟨?_, ?_, ?_, rfl, rfl⟩
  · have h : catmullRomGetPoint [p] (1 / 2) 0 =
        Except.error JsRuntimeError.undefinedAccess := by
      norm_num [catmullRomGetPoint, jsGet, jsFloor_eq_floor]
      rfl
    unfold roadPathConstruct curveGetLength
    rw [h]
    rfl
  · have h : catmullRomGetPoint ([] : List Vec3) (1 / 2) 0 =
        Except.error JsRuntimeError.undefinedAccess := by
      norm_num [catmullRomGetPoint, jsGet, jsFloor_eq_floor]
      rfl
    unfold roadPathConstruct curveGetLength
    rw [h]
    rfl
  · simp [generate, applyRoadSmoothing, mkGrid]

/-! ## C8 — degenerate wheel dimensions skip the whole rotation block -/

/-- C8 counterexample: with rotation enabled, four classified wheels,
wheelbase 2 and track width 0 (front wheels on ground height 1, back
wheels on 0), `update` leaves the pitch (`rotation.z`) at its initial
`0` — the whole rotation block is skipped — whereas the same call with
track width 1 applies the pitch `atan2(1, 2)` (here the surrogate
`atan2` value `1/2`).  The claim that pitch is still computed and
applied when only the track width is zero is therefore false. -/
theorem pitch_skip_counterexample :
    (update ⟨true, 0, 0, 0, 10, 10⟩
        [castRayDown (some (1, 44)) 0 0, castRayDown (some (1, 44)) 1 0,
          castRayDown (some (0, 45)) 0 1, castRayDown (some (0, 45)) 1 1]
        0 ⟨some 0, some 1, some 2, some 3⟩ (some ⟨2, 0⟩) (fun a b => a / b)
        ⟨0, 0, 0⟩ ⟨0, 0⟩).model.rotZ = 0 ∧
    (update ⟨true, 0, 0, 0, 10, 10⟩
        [castRayDown (some (1, 44)) 0 0, castRayDown (some (1, 44)) 1 0,
          castRayDown (some (0, 45)) 0 1, castRayDown (some (0, 45)) 1 1]
        0 ⟨some 0, some 1, some 2, some 3⟩ (some ⟨2, 1⟩) (fun a b => a / b)
        ⟨0, 0, 0⟩ ⟨0, 0⟩).model.rotZ = 1 / 2 ∧
    (0 : ℚ) ≠ 1 / 2 := by
  refine ⟨?_, ?_, by norm_num⟩
  · norm_num [update, rotationStep, groundHeightUsed, castRayDown, clampQ, lerpQ]
  · norm_num [update, rotationStep, groundHeightUsed, castRayDown, clampQ, lerpQ]

/-- C8 (amended): whenever `getWheelDimensions` reports a wheelbase or
track width that is not strictly positive, `update` skips the entire
rotation block — both pitch and roll are left unchanged, as is the
follower's smoothing state — rather than skipping only the axis of the
degenerate dimension.  (The vertical-position stage still runs.) -/
theorem rotation_skipped_when_degenerate (options : TerrainFollowOptions)
    (results : List RaycastResult) (wbo : ℚ) (indices : WheelIndices)
    (d : WheelDimensions) (atan2Fn : ℚ → ℚ → ℚ) (model : ModelState)
    (fs : FollowerState) (hdeg : ¬(0 < d.wheelbase ∧ 0 < d.trackWidth)) :
    (update options results wbo indices (some d) atan2Fn model fs).model.rotX =
      model.rotX ∧
    (update options results wbo indices (some d) atan2Fn model fs).model.rotZ =
      model.rotZ ∧
    (update options results wbo indices (some d) atan2Fn model fs).follower = fs := by
  have hrot : ∀ (rrs : List ℚ) (wc : ℕ) (m1 : ModelState),
      rotationStep options rrs wc indices (some d) atan2Fn m1 fs = ⟨m1, fs⟩ := by
    intro rrs wc m1
    unfold rotationStep
    split
    · simp [hdeg]
    · rfl
  unfold update
  rw [hrot]
  exact ⟨rfl, rfl, rfl⟩

theorem rotation_skipped_when_degenerate_witness :
    ¬((0 : ℚ) < 2 ∧ (0 : ℚ) < 0) ∧
    ((update ⟨true, 0, 0, 0, 10, 10⟩
        [castRayDown (some (1, 44)) 0 0, castRayDown (some (1, 44)) 1 0,
          castRayDown (some (0, 45)) 0 1, castRayDown (some (0, 45)) 1 1]
        0 ⟨some 0, some 1, some 2, some 3⟩ (some ⟨2, 0⟩) (fun a b => a * b)
        ⟨3, 4, 5⟩ ⟨6, 7⟩).model.rotX = (4 : ℚ) ∧
      (update ⟨true, 0, 0, 0, 10, 10⟩
        [castRayDown (some (1, 44)) 0 0, castRayDown (some (1, 44)) 1 0,
          castRayDown (some (0, 45)) 0 1, castRayDown (some (0, 45)) 1 1]
        0 ⟨some 0, some 1, some 2, some 3⟩ (some ⟨2, 0⟩) (fun a b => a * b)
        ⟨3, 4, 5⟩ ⟨6, 7⟩).model.rotZ = (5 : ℚ) ∧
      (update ⟨true, 0, 0, 0, 10, 10⟩
        [castRayDown (some (1, 44)) 0 0, castRayDown (some (1, 44)) 1 0,
          castRayDown (some (0, 45)) 0 1, castRayDown (some (0, 45)) 1 1]
        0 ⟨some 0, some 1, some 2, some 3⟩ (some ⟨2, 0⟩) (fun a b => a * b)
        ⟨3, 4, 5⟩ ⟨6, 7⟩).follower = (⟨6, 7⟩ : FollowerState)) :=
  ⟨by norm_num,
    rotation_skipped_when_degenerate ⟨true, 0, 0, 0, 10, 10⟩
      [castRayDown (some (1, 44)) 0 0, castRayDown (some (1, 44)) 1 0,
        castRayDown (some (0, 45)) 0 1, castRayDown (some (0, 45)) 1 1]
      0 ⟨some 0, some 1, some 2, some 3⟩ ⟨2, 0⟩ (fun a b => a * b)
      ⟨3, 4, 5⟩ ⟨6, 7⟩ (by norm_num)⟩

/-! ## C7 — the octave-noise accumulation formula -/

/-- Closed form of the `octaveNoise` accumulation loop (noise.ts lines
83-88): starting from `(total, frequency, amplitude, maxValue) =
(t, f, a, m)`, `n` iterations add the layered noise terms with
frequency doubling and amplitude multiplied by the persistence each
layer. -/
theorem octaveNoiseAux_eq (noise : ℚ → ℚ → ℚ) (x y p : ℚ) (n : ℕ) :
    ∀ (t f a m : ℚ),
      octaveNoiseAux noise x y p n t f a m =
        (t + ∑ i ∈ Finset.range n, noise (x * (f * 2 ^ i)) (y * (f * 2 ^ i)) * (a * p ^ i),
         m + ∑ i ∈ Finset.range n, a * p ^ i) := by
  induction n with
  | zero => intro t f a m; simp [octaveNoiseAux]
  | succ n ih =>
      intro t f a m
      rw [octaveNoiseAux, ih]
      have h2 : ∀ i : ℕ, f * 2 * 2 ^ i = f * 2 ^ (i + 1) := fun i => by ring
      have h3 : ∀ i : ℕ, a * p * p ^ i = a * p ^ (i + 1) := fun i => by ring
      have hfst : t + noise (x * f) (y * f) * a +
          ∑ i ∈ Finset.range n,
            noise (x * (f * 2 * 2 ^ i)) (y * (f * 2 * 2 ^ i)) * (a * p * p ^ i) =
          t + ∑ i ∈ Finset.range (n + 1),
            noise (x * (f * 2 ^ i)) (y * (f * 2 ^ i)) * (a * p ^ i) := by
        rw [Finset.sum_range_succ']
        simp only [h2, h3, pow_zero, mul_one]
        ring
      have hsnd : m + a + ∑ i ∈ Finset.range n, a * p * p ^ i =
          m + ∑ i ∈ Finset.range (n + 1), a * p ^ i := by
        rw [Finset.sum_range_succ']
        simp only [h3, pow_zero, mul_one]
        ring
      rw [Prod.mk.injEq]
      exact ⟨hfst, hsnd⟩

/-- C7 counterexample: `octaveNoise` takes no lacunarity parameter —
its frequency is hard-wired to double each layer — so the claimed
identity fails for any lacunarity other than 2.  With the noise
function `(a, b) ↦ a`, 2 octaves and persistence 1, the implementation
yields `3/2` while the spec formula at lacunarity 3 yields `2`. -/
theorem octaveNoise_lacunarity_counterexample :
    octaveNoise (fun a _ => a) 1 0 2 1 = 3 / 2 ∧
    specOctaveSample (fun a _ => a) 1 0 2 1 3 = 2 ∧
    octaveNoise (fun a _ => a) 1 0 2 1 ≠ specOctaveSample (fun a _ => a) 1 0 2 1 3 := by
  refine ⟨?_, ?_, ?_⟩
  · norm_num [octaveNoise, octaveNoiseAux]
  · norm_num [specOctaveSample, Finset.sum_range_succ]
  · norm_num [octaveNoise, octaveNoiseAux, specOctaveSample, Finset.sum_range_succ]

/-- C7 (amended): `octaveNoise` equals the spec's normalized weighted
sum with the lacunarity fixed at 2 (the hard-wired `frequency *= 2`),
and for positive persistence and at least one octave, whenever every
base noise sample lies in `[-1, 1]` the octave sample also lies in
`[-1, 1]`. -/
theorem octaveNoise_matches_spec (noise : ℚ → ℚ → ℚ) (x y : ℚ) (octaves : ℕ) (p : ℚ)
    (hoct : 1 ≤ octaves) (hp : 0 < p) (hb : ∀ a b : ℚ, |noise a b| ≤ 1) :
    octaveNoise noise x y octaves p = specOctaveSample noise x y octaves p 2 ∧
    -1 ≤ octaveNoise noise x y octaves p ∧ octaveNoise noise x y octaves p ≤ 1 := by
  have heq : octaveNoise noise x y octaves p = specOctaveSample noise x y octaves p 2 := by
    unfold octaveNoise specOctaveSample
    rw [octaveNoiseAux_eq]
    simp only [zero_add, one_mul]
  have hA : (0 : ℚ) < ∑ i ∈ Finset.range octaves, p ^ i :=
    Finset.sum_pos (fun i _ => pow_pos hp i)
      (Finset.nonempty_range_iff.mpr (by omega))
  have htot : |∑ i ∈ Finset.range octaves, noise (x * 2 ^ i) (y * 2 ^ i) * p ^ i| ≤
      ∑ i ∈ Finset.range octaves, p ^ i := by
    calc |∑ i ∈ Finset.range octaves, noise (x * 2 ^ i) (y * 2 ^ i) * p ^ i|
        ≤ ∑ i ∈ Finset.range octaves, |noise (x * 2 ^ i) (y * 2 ^ i) * p ^ i| :=
          Finset.abs_sum_le_sum_abs _ _
      _ ≤ ∑ i ∈ Finset.range octaves, p ^ i := by
          apply Finset.sum_le_sum
          intro i _
          rw [abs_mul, abs_of_pos (pow_pos hp i)]
          calc |noise (x * 2 ^ i) (y * 2 ^ i)| * p ^ i ≤ 1 * p ^ i :=
              mul_le_mul_of_nonneg_right (hb _ _) (le_of_lt (pow_pos hp i))
            _ = p ^ i := one_mul _
  have habs : |octaveNoise noise x y octaves p| ≤ 1 := by
    rw [heq]
    unfold specOctaveSample
    rw [abs_div, abs_of_pos hA, div_le_one hA]
    exact htot
  exact ⟨heq, (abs_le.mp habs).1, (abs_le.mp habs).2⟩

theorem octaveNoise_matches_spec_witness :
    ((1 : ℕ) ≤ 3 ∧ (0 : ℚ) < 1 / 2 ∧ ∀ a b : ℚ, |(fun _ _ : ℚ => (0 : ℚ)) a b| ≤ 1) ∧
    (octaveNoise (fun _ _ => 0) 5 7 3 (1 / 2) =
        specOctaveSample (fun _ _ => 0) 5 7 3 (1 / 2) 2 ∧
      -1 ≤ octaveNoise (fun _ _ => 0) 5 7 3 (1 / 2) ∧
      octaveNoise (fun _ _ => 0) 5 7 3 (1 / 2) ≤ 1) :=
  ⟨⟨by norm_num, by norm_num, fun a b => by norm_num⟩,
    octaveNoise_matches_spec (fun _ _ => 0) 5 7 3 (1 / 2) (by norm_num) (by norm_num)
      (fun a b => by norm_num)⟩

/-! ## C10 — half-open interpolation domain of `getHeightAt` -/

theorem gridCoord_pos_lt (w size : ℚ) (segments : ℕ) (hseg : 1 ≤ segments)
    (hsize : 0 < size) (h1 : -(size / 2) < w) (h2 : w < size / 2) :
    0 < gridCoord w size segments ∧ gridCoord w size segments < (segments : ℚ) := by
  have hsegQ : (0 : ℚ) < (segments : ℚ) := by exact_mod_cast Nat.pos_of_ne_zero (by omega)
  have hcell : (0 : ℚ) < size / (segments : ℚ) := div_pos hsize hsegQ
  constructor
  · exact div_pos (by linarith) hcell
  · rw [gridCoord, div_lt_iff₀ hcell]
    have hms : (segments : ℚ) * (size / (segments : ℚ)) = size := by
      field_simp
    rw [hms]
    linarith

theorem jsFloor_interior (w size : ℚ) (segments : ℕ) (hseg : 1 ≤ segments)
    (hsize : 0 < size) (h1 : -(size / 2) < w) (h2 : w < size / 2) :
    0 ≤ jsFloor (gridCoord w size segments) ∧
      jsFloor (gridCoord w size segments) < (segments : ℤ) := by
  obtain ⟨hg0, hg1⟩ := gridCoord_pos_lt w size segments hseg hsize h1 h2
  rw [jsFloor_eq_floor]
  constructor
  · exact Int.le_floor.mpr (by exact_mod_cast le_of_lt hg0)
  · exact Int.floor_lt.mpr (by exact_mod_cast hg1)

/-- C10: the interpolation domain of `getHeightAt` is half-open.  At
`x = +size/2` (with `z` strictly interior) the computed column index is
exactly `segments`, which fails the `col >= segments` boundary check, so
the function returns the out-of-bounds value `0`; at `x = -size/2` the
column index is `0` and the function returns the bilinear interpolation
of the first cell — the two opposite edges are treated asymmetrically. -/
theorem getHeightAt_edges (z size : ℚ) (segments : ℕ) (heightmap : List ℚ)
    (hseg : 1 ≤ segments) (hsize : 0 < size)
    (hz1 : -(size / 2) < z) (hz2 : z < size / 2) :
    jsFloor (gridCoord (size / 2) size segments) = (segments : ℤ) ∧
    getHeightAt (size / 2) z heightmap size segments = 0 ∧
    jsFloor (gridCoord (-(size / 2)) size segments) = 0 ∧
    getHeightAt (-(size / 2)) z heightmap size segments =
      bilinearInterp heightmap segments (gridCoord (-(size / 2)) size segments)
        (gridCoord z size segments) 0 (jsFloor (gridCoord z size segments)) := by
  have hsegQ : (0 : ℚ) < (segments : ℚ) := by exact_mod_cast Nat.pos_of_ne_zero (by omega)
  have hgc_hi : gridCoord (size / 2) size segments = (segments : ℚ) := by
    rw [gridCoord]
    field_simp
  have hgc_lo : gridCoord (-(size / 2)) size segments = 0 := by
    rw [gridCoord]
    simp
  have hfl_hi : jsFloor (gridCoord (size / 2) size segments) = (segments : ℤ) := by
    rw [hgc_hi, jsFloor_eq_floor, Int.floor_natCast]
  have hfl_lo : jsFloor (gridCoord (-(size / 2)) size segments) = 0 := by
    rw [hgc_lo, jsFloor_eq_floor, Int.floor_zero]
  obtain ⟨hr0, hr1⟩ := jsFloor_interior z size segments hseg hsize hz1 hz2
  refine ⟨hfl_hi, ?_, hfl_lo, ?_⟩
  · simp only [getHeightAt]
    rw [hfl_hi]
    have hcond : ((segments : ℤ) < 0 ∨ (segments : ℤ) ≤ (segments : ℤ) ∨
        jsFloor (gridCoord z size segments) < 0 ∨
        (segments : ℤ) ≤ jsFloor (gridCoord z size segments)) := Or.inr (Or.inl le_rfl)
    simp only [hcond, if_true]
  · simp only [getHeightAt]
    rw [hfl_lo]
    have hcond : ¬((0 : ℤ) < 0 ∨ (segments : ℤ) ≤ (0 : ℤ) ∨
        jsFloor (gridCoord z size segments) < 0 ∨
        (segments : ℤ) ≤ jsFloor (gridCoord z size segments)) := by
      push_neg
      omega
    rw [if_neg hcond]

theorem getHeightAt_edges_witness :
    ((1 : ℕ) ≤ 1 ∧ (0 : ℚ) < 2 ∧ -(2 / 2 : ℚ) < 0 ∧ (0 : ℚ) < 2 / 2) ∧
    (jsFloor (gridCoord (2 / 2) 2 1) = (1 : ℤ) ∧
      getHeightAt (2 / 2) 0 [1, 2, 3, 4] 2 1 = 0 ∧
      jsFloor (gridCoord (-(2 / 2)) 2 1) = 0 ∧
      getHeightAt (-(2 / 2)) 0 [1, 2, 3, 4] 2 1 =
        bilinearInterp [1, 2, 3, 4] 1 (gridCoord (-(2 / 2)) 2 1) (gridCoord 0 2 1) 0
          (jsFloor (gridCoord 0 2 1))) :=
  ⟨⟨le_refl 1, by norm_num, by norm_num, by norm_num⟩,
    getHeightAt_edges 0 2 1 [1, 2, 3, 4] (le_refl 1) (by norm_num) (by norm_num)
      (by norm_num)⟩

/-! ## C2 — bilinear interpolation stays within the metadata bounds -/


theorem minStep_le (mn : WithTop ℚ) (h : ℚ) : minStep mn h ≤ mn := by
  unfold minStep
  split
  · exact le_of_lt ‹_›
  · exact le_rfl

theorem minStep_le_coe (mn : WithTop ℚ) (h : ℚ) : minStep mn h ≤ (h : WithTop ℚ) := by
  unfold minStep
  split
  · exact le_rfl
  · exact not_lt.mp ‹_›

theorem minFold_le_init (l : List ℚ) : ∀ init : WithTop ℚ, l.foldl minStep init ≤ init := by
  induction l with
  | nil => intro init; exact le_rfl
  | cons a t ih =>
      intro init
      calc (a :: t).foldl minStep init = t.foldl minStep (minStep init a) := rfl
        _ ≤ minStep init a := ih _
        _ ≤ init := minStep_le _ _

theorem minFold_le_mem (l : List ℚ) : ∀ (init : WithTop ℚ) (h : ℚ), h ∈ l →
    l.foldl minStep init ≤ (h : WithTop ℚ) := by
  induction l with
  | nil => intro _ _ hmem; cases hmem
  | cons a t ih =>
      intro init h hmem
      rcases List.mem_cons.mp hmem with rfl | hmem
      · calc (h :: t).foldl minStep init = t.foldl minStep (minStep init h) := rfl
          _ ≤ minStep init h := minFold_le_init _ _
          _ ≤ (h : WithTop ℚ) := minStep_le_coe _ _
      · exact ih (minStep init a) h hmem

theorem minHeightOf_le (heightmap : List ℚ) (h : ℚ) (hmem : h ∈ heightmap) :
    minHeightOf heightmap ≤ (h : WithTop ℚ) :=
  minFold_le_mem heightmap ⊤ h hmem

theorem maxStep_le (mx : WithBot ℚ) (h : ℚ) : mx ≤ maxStep mx h := by
  unfold maxStep
  split
  · exact le_of_lt ‹_›
  · exact le_rfl

theorem coe_le_maxStep (mx : WithBot ℚ) (h : ℚ) : (h : WithBot ℚ) ≤ maxStep mx h := by
  unfold maxStep
  split
  · exact le_rfl
  · exact not_lt.mp ‹_›

theorem maxFold_init_le (l : List ℚ) : ∀ init : WithBot ℚ, init ≤ l.foldl maxStep init := by
  induction l with
  | nil => intro init; exact le_rfl
  | cons a t ih =>
      intro init
      calc init ≤ maxStep init a := maxStep_le _ _
        _ ≤ t.foldl maxStep (maxStep init a) := ih _
        _ = (a :: t).foldl maxStep init := rfl

theorem maxFold_mem_le (l : List ℚ) : ∀ (init : WithBot ℚ) (h : ℚ), h ∈ l →
    (h : WithBot ℚ) ≤ l.foldl maxStep init := by
  induction l with
  | nil => intro _ _ hmem; cases hmem
  | cons a t ih =>
      intro init h hmem
      rcases List.mem_cons.mp hmem with rfl | hmem
      · calc (h : WithBot ℚ) ≤ maxStep init h := coe_le_maxStep _ _
          _ ≤ t.foldl maxStep (maxStep init h) := maxFold_init_le _ _
          _ = (h :: t).foldl maxStep init := rfl
      · exact ih (maxStep init a) h hmem

theorem le_maxHeightOf (heightmap : List ℚ) (h : ℚ) (hmem : h ∈ heightmap) :
    (h : WithBot ℚ) ≤ maxHeightOf heightmap :=
  maxFold_mem_le heightmap ⊥ h hmem

theorem lerp_lower (a b t m : ℚ) (h0 : 0 ≤ t) (h1 : t ≤ 1) (ha : m ≤ a) (hb : m ≤ b) :
    m ≤ a * (1 - t) + b * t := by nlinarith

theorem lerp_upper (a b t m : ℚ) (h0 : 0 ≤ t) (h1 : t ≤ 1) (ha : a ≤ m) (hb : b ≤ m) :
    a * (1 - t) + b * t ≤ m := by nlinarith

theorem gridIdx_lt (s r c : ℕ) (hr : r ≤ s) (hc : c ≤ s) :
    r * (s + 1) + c < (s + 1) * (s + 1) := by
  calc r * (s + 1) + c < r * (s + 1) + (s + 1) := by omega
    _ = (r + 1) * (s + 1) := by ring
    _ ≤ (s + 1) * (s + 1) := Nat.mul_le_mul_right _ (by omega)



/-- C2: for every point strictly inside the terrain square and every
grid of the metadata's `(segments+1)²` size, `getHeightAt` interpolates
(the boundary check passes) and the resulting value lies between the
`minHeight` and `maxHeight` computed by `calculateMetadata`'s reduction
over the finished grid — a bilinear blend cannot exceed the corner
extremes, which are grid entries.  (Over the exact rationals every
value is finite; the bounds below in particular force the reductions
away from their `±Infinity` starting values.) -/
theorem getHeightAt_bounds (x z size : ℚ) (segments : ℕ) (heightmap : List ℚ)
    (hseg : 1 ≤ segments) (hsize : 0 < size)
    (hx1 : -(size / 2) < x) (hx2 : x < size / 2)
    (hz1 : -(size / 2) < z) (hz2 : z < size / 2)
    (hlen : heightmap.length = (segments + 1) * (segments + 1)) :
    minHeightOf heightmap ≤ (getHeightAt x z heightmap size segments : WithTop ℚ) ∧
    (getHeightAt x z heightmap size segments : WithBot ℚ) ≤ maxHeightOf heightmap := by
  obtain ⟨hc0, hc1⟩ := jsFloor_interior x size segments hseg hsize hx1 hx2
  obtain ⟨hr0, hr1⟩ := jsFloor_interior z size segments hseg hsize hz1 hz2
  have hcond : ¬(jsFloor (gridCoord x size segments) < 0 ∨
      (segments : ℤ) ≤ jsFloor (gridCoord x size segments) ∨
      jsFloor (gridCoord z size segments) < 0 ∨
      (segments : ℤ) ≤ jsFloor (gridCoord z size segments)) := by
    push_neg
    omega
  have hval : getHeightAt x z heightmap size segments =
      bilinearInterp heightmap segments (gridCoord x size segments)
        (gridCoord z size segments) (jsFloor (gridCoord x size segments))
        (jsFloor (gridCoord z size segments)) := by
    simp only [getHeightAt]
    rw [if_neg hcond]
  -- fractional offsets lie in [0, 1)
  have hfract : ∀ w : ℚ, 0 ≤ w - (↑(jsFloor w) : ℚ) ∧ w - (↑(jsFloor w) : ℚ) ≤ 1 := by
    intro w
    rw [jsFloor_eq_floor, Int.self_sub_floor]
    exact ⟨Int.fract_nonneg w, le_of_lt (Int.fract_lt_one w)⟩
  obtain ⟨htx0, htx1⟩ := hfract (gridCoord x size segments)
  obtain ⟨htz0, htz1⟩ := hfract (gridCoord z size segments)
  -- names for the corner reads
  set c : ℕ := (jsFloor (gridCoord x size segments)).toNat with hc
  set r : ℕ := (jsFloor (gridCoord z size segments)).toNat with hr
  have hcs : c ≤ segments := by omega
  have hrs : r ≤ segments := by omega
  have hcs1 : c + 1 ≤ segments := by omega
  have hrs1 : r + 1 ≤ segments := by omega
  have hmem : ∀ r' c' : ℕ, r' ≤ segments → c' ≤ segments →
      heightmap.getD (r' * (segments + 1) + c') 0 ∈ heightmap := by
    intro r' c' hr' hc'
    have hidx : r' * (segments + 1) + c' < heightmap.length := by
      rw [hlen]; exact gridIdx_lt segments r' c' hr' hc'
    rw [List.getD_eq_getElem heightmap 0 hidx]
    exact List.getElem_mem hidx
  have hm00 := hmem r c hrs hcs
  have hm10 := hmem r (c + 1) hrs hcs1
  have hm01 := hmem (r + 1) c hrs1 hcs
  have hm11 := hmem (r + 1) (c + 1) hrs1 hcs1
  set h00 := heightmap.getD (r * (segments + 1) + c) 0 with hh00
  set h10 := heightmap.getD (r * (segments + 1) + (c + 1)) 0 with hh10
  set h01 := heightmap.getD ((r + 1) * (segments + 1) + c) 0 with hh01
  set h11 := heightmap.getD ((r + 1) * (segments + 1) + (c + 1)) 0 with hh11
  set tx := gridCoord x size segments - (↑(jsFloor (gridCoord x size segments)) : ℚ) with htx
  set tz := gridCoord z size segments - (↑(jsFloor (gridCoord z size segments)) : ℚ) with htz
  have hbil : bilinearInterp heightmap segments (gridCoord x size segments)
      (gridCoord z size segments) (jsFloor (gridCoord x size segments))
      (jsFloor (gridCoord z size segments)) =
      (h00 * (1 - tx) + h10 * tx) * (1 - tz) + (h01 * (1 - tx) + h11 * tx) * tz := by
    simp only [bilinearInterp]
  set v := (h00 * (1 - tx) + h10 * tx) * (1 - tz) + (h01 * (1 - tx) + h11 * tx) * tz with hv
  set mlo := min (min h00 h10) (min h01 h11) with hmlo
  set mhi := max (max h00 h10) (max h01 h11) with hmhi
  have hlo : mlo ≤ v := by
    apply lerp_lower _ _ _ _ htz0 htz1
    · apply lerp_lower _ _ _ _ htx0 htx1
      · exact le_trans (min_le_left _ _) (min_le_left _ _)
      · exact le_trans (min_le_left _ _) (min_le_right _ _)
    · apply lerp_lower _ _ _ _ htx0 htx1
      · exact le_trans (min_le_right _ _) (min_le_left _ _)
      · exact le_trans (min_le_right _ _) (min_le_right _ _)
  have hhi : v ≤ mhi := by
    apply lerp_upper _ _ _ _ htz0 htz1
    · apply lerp_upper _ _ _ _ htx0 htx1
      · exact le_trans (le_max_left _ _) (le_max_left _ _)
      · exact le_trans (le_max_right _ _) (le_max_left _ _)
    · apply lerp_upper _ _ _ _ htx0 htx1
      · exact le_trans (le_max_left _ _) (le_max_right _ _)
      · exact le_trans (le_max_right _ _) (le_max_right _ _)
  have hmlo_mem : mlo = h00 ∨ mlo = h10 ∨ mlo = h01 ∨ mlo = h11 := by
    rcases min_choice (min h00 h10) (min h01 h11) with h | h <;>
      rw [hmlo, h]
    · rcases min_choice h00 h10 with h' | h' <;> rw [h']
      · exact Or.inl rfl
      · exact Or.inr (Or.inl rfl)
    · rcases min_choice h01 h11 with h' | h' <;> rw [h']
      · exact Or.inr (Or.inr (Or.inl rfl))
      · exact Or.inr (Or.inr (Or.inr rfl))
  have hmhi_mem : mhi = h00 ∨ mhi = h10 ∨ mhi = h01 ∨ mhi = h11 := by
    rcases max_choice (max h00 h10) (max h01 h11) with h | h <;>
      rw [hmhi, h]
    · rcases max_choice h00 h10 with h' | h' <;> rw [h']
      · exact Or.inl rfl
      · exact Or.inr (Or.inl rfl)
    · rcases max_choice h01 h11 with h' | h' <;> rw [h']
      · exact Or.inr (Or.inr (Or.inl rfl))
      · exact Or.inr (Or.inr (Or.inr rfl))
  have hminle : minHeightOf heightmap ≤ (mlo : WithTop ℚ) := by
    rcases hmlo_mem with h | h | h | h <;> rw [h]
    · exact minHeightOf_le heightmap h00 hm00
    · exact minHeightOf_le heightmap h10 hm10
    · exact minHeightOf_le heightmap h01 hm01
    · exact minHeightOf_le heightmap h11 hm11
  have hmaxge : (mhi : WithBot ℚ) ≤ maxHeightOf heightmap := by
    rcases hmhi_mem with h | h | h | h <;> rw [h]
    · exact le_maxHeightOf heightmap h00 hm00
    · exact le_maxHeightOf heightmap h10 hm10
    · exact le_maxHeightOf heightmap h01 hm01
    · exact le_maxHeightOf heightmap h11 hm11
  rw [hval, hbil]
  constructor
  · calc minHeightOf heightmap ≤ (mlo : WithTop ℚ) := hminle
      _ ≤ (v : WithTop ℚ) := WithTop.coe_le_coe.mpr hlo
  · calc (v : WithBot ℚ) ≤ (mhi : WithBot ℚ) := WithBot.coe_le_coe.mpr hhi
      _ ≤ maxHeightOf heightmap := hmaxge


theorem getHeightAt_bounds_witness :
    ((1 : ℕ) ≤ 1 ∧ (0 : ℚ) < 2 ∧
      (-(2 / 2 : ℚ) < 0 ∧ (0 : ℚ) < 2 / 2) ∧
      ([1, 2, 3, 4] : List ℚ).length = (1 + 1) * (1 + 1)) ∧
    (minHeightOf [1, 2, 3, 4] ≤ (getHeightAt 0 0 [1, 2, 3, 4] 2 1 : WithTop ℚ) ∧
      (getHeightAt 0 0 [1, 2, 3, 4] 2 1 : WithBot ℚ) ≤ maxHeightOf [1, 2, 3, 4]) :=
  ⟨⟨le_refl 1, by norm_num, ⟨by norm_num, by norm_num⟩, rfl⟩,
    getHeightAt_bounds 0 0 2 1 [1, 2, 3, 4] (le_refl 1) (by norm_num) (by norm_num)
      (by norm_num) (by norm_num) (by norm_num) rfl⟩

/-! ## C9 — `findClosestPoint` returns the first closest sample -/

/-- Characterization of the `findClosestPoint` scan: the fold either
saw no sample (empty list, accumulator untouched at
`(Infinity, null)`), or ends at the sample of least squared planar
distance, strictly smaller than every earlier sample's distance
(because the update uses a strict `<`). -/


theorem fcpFold_spec (x z : ℚ) (l : List RoadSample) :
    (l = [] ∧ l.foldl (fcpStep x z) (⊤, none) = (⊤, none)) ∨
    (∃ i, ∃ hi : i < l.length,
      l.foldl (fcpStep x z) (⊤, none) = (↑(sqDistTo x z l[i]), some l[i]) ∧
      (∀ j, ∀ hj : j < l.length, sqDistTo x z l[i] ≤ sqDistTo x z l[j]) ∧
      (∀ j, ∀ hj : j < l.length, j < i → sqDistTo x z l[i] < sqDistTo x z l[j])) := by
  induction l using List.reverseRecOn with
  | nil => exact Or.inl ⟨rfl, rfl⟩
  | append_singleton l a ih =>
      right
      rw [List.foldl_append]
      have hlap : (l ++ [a]).length = l.length + 1 := by
        rw [List.length_append, List.length_singleton]
      have hlenlt : l.length < (l ++ [a]).length := by omega
      have hgeta : (l ++ [a])[l.length] = a := by
        rw [List.getElem_append_right (le_refl l.length)]
        simp
      rcases ih with ⟨rfl, hfold⟩ | ⟨i, hi, hfold, hmin, htie⟩
      · -- empty prefix: the first sample is always taken (dist < Infinity)
        rw [hfold]
        have hlen0 : ([] : List RoadSample).length = 0 := rfl
        have h0lt : 0 < ([] ++ [a] : List RoadSample).length := by omega
        refine ⟨0, h0lt, ?_, ?_, ?_⟩
        · have h0 : ([] ++ [a] : List RoadSample)[0] = a := rfl
          rw [h0]
          simp only [List.foldl_cons, List.foldl_nil, fcpStep, WithTop.coe_lt_top, if_true]
        · intro j hj
          have hj0 : j = 0 := by omega
          subst hj0
          exact le_refl _
        · intro j hj hji
          omega
      · rw [hfold]
        have hiap : i < (l ++ [a]).length := by omega
        by_cases hlt : sqDistTo x z a < sqDistTo x z l[i]
        · -- the new sample strictly improves: it becomes the new best
          refine ⟨l.length, hlenlt, ?_, ?_, ?_⟩
          · rw [hgeta]
            simp only [List.foldl_cons, List.foldl_nil, fcpStep]
            rw [if_pos (WithTop.coe_lt_coe.mpr hlt)]
          · intro j hj
            rw [hgeta]
            rcases Nat.lt_or_ge j l.length with hjl | hjl
            · rw [List.getElem_append_left hjl]
              exact le_of_lt (lt_of_lt_of_le hlt (hmin j hjl))
            · have hj2 : j = l.length := by omega
              subst hj2
              rw [hgeta]
          · intro j hj hji
            rw [hgeta]
            have hjl : j < l.length := hji
            rw [List.getElem_append_left hjl]
            exact lt_of_lt_of_le hlt (hmin j hjl)
        · -- no strict improvement: the earlier best is kept
          have hreject : ¬((↑(sqDistTo x z a) : WithTop ℚ) <
              ↑(sqDistTo x z l[i])) := by
            rw [WithTop.coe_lt_coe]
            exact hlt
          have hgeti : (l ++ [a])[i] = l[i] := List.getElem_append_left hi
          refine ⟨i, hiap, ?_, ?_, ?_⟩
          · rw [hgeti]
            simp only [List.foldl_cons, List.foldl_nil, fcpStep]
            rw [if_neg hreject]
          · intro j hj
            rw [hgeti]
            rcases Nat.lt_or_ge j l.length with hjl | hjl
            · rw [List.getElem_append_left hjl]
              exact hmin j hjl
            · have hj2 : j = l.length := by omega
              subst hj2
              rw [hgeta]
              exact not_lt.mp hlt
          · intro j hj hji
            rw [hgeti]
            have hjl : j < l.length := lt_of_lt_of_le hji (le_of_lt hi)
            rw [List.getElem_append_left hjl]
            exact htie j hjl hji



/-- C9: for a nonempty sample list, `findClosestPoint` returns a
precomputed sample whose planar distance to the query point is minimal
over all samples, and when several samples attain the minimum the one
earliest in the fixed iteration order is returned (every strictly
earlier sample has strictly larger distance).  Distances are compared
as squares; `sqrt` is strictly monotone, so the selected sample is the
code's. -/
theorem findClosestPoint_first_min (samples : List RoadSample) (x z : ℚ)
    (hne : samples ≠ []) :
    ∃ i, ∃ hi : i < samples.length,
      findClosestPoint samples x z =
        { closestPoint := samples[i].position,
          distSq := ↑(sqDistTo x z samples[i]),
          roadElevation := samples[i].position.y } ∧
      (∀ j, ∀ hj : j < samples.length,
        sqDistTo x z samples[i] ≤ sqDistTo x z samples[j]) ∧
      (∀ j, ∀ hj : j < samples.length, j < i →
        sqDistTo x z samples[i] < sqDistTo x z samples[j]) := by
  rcases fcpFold_spec x z samples with ⟨hnil, _⟩ | ⟨i, hi, hfold, hmin, htie⟩
  · exact absurd hnil hne
  · refine ⟨i, hi, ?_, hmin, htie⟩
    simp only [findClosestPoint, hfold]

theorem findClosestPoint_first_min_witness :
    ([⟨⟨1, 2, 3⟩, 0, ⟨1, 0, 0⟩⟩, ⟨⟨1, 5, 3⟩, 1, ⟨1, 0, 0⟩⟩] : List RoadSample) ≠ [] ∧
    (∃ i, ∃ hi : i < ([⟨⟨1, 2, 3⟩, 0, ⟨1, 0, 0⟩⟩, ⟨⟨1, 5, 3⟩, 1, ⟨1, 0, 0⟩⟩] :
        List RoadSample).length,
      findClosestPoint [⟨⟨1, 2, 3⟩, 0, ⟨1, 0, 0⟩⟩, ⟨⟨1, 5, 3⟩, 1, ⟨1, 0, 0⟩⟩] 1 3 =
        { closestPoint := (([⟨⟨1, 2, 3⟩, 0, ⟨1, 0, 0⟩⟩, ⟨⟨1, 5, 3⟩, 1, ⟨1, 0, 0⟩⟩] :
              List RoadSample)[i]).position,
          distSq := ↑(sqDistTo 1 3 (([⟨⟨1, 2, 3⟩, 0, ⟨1, 0, 0⟩⟩, ⟨⟨1, 5, 3⟩, 1, ⟨1, 0, 0⟩⟩] :
              List RoadSample)[i])),
          roadElevation := (([⟨⟨1, 2, 3⟩, 0, ⟨1, 0, 0⟩⟩, ⟨⟨1, 5, 3⟩, 1, ⟨1, 0, 0⟩⟩] :
              List RoadSample)[i]).position.y } ∧
      (∀ j, ∀ hj : j < ([⟨⟨1, 2, 3⟩, 0, ⟨1, 0, 0⟩⟩, ⟨⟨1, 5, 3⟩, 1, ⟨1, 0, 0⟩⟩] :
          List RoadSample).length,
        sqDistTo 1 3 (([⟨⟨1, 2, 3⟩, 0, ⟨1, 0, 0⟩⟩, ⟨⟨1, 5, 3⟩, 1, ⟨1, 0, 0⟩⟩] :
            List RoadSample)[i]) ≤
          sqDistTo 1 3 (([⟨⟨1, 2, 3⟩, 0, ⟨1, 0, 0⟩⟩, ⟨⟨1, 5, 3⟩, 1, ⟨1, 0, 0⟩⟩] :
            List RoadSample)[j])) ∧
      (∀ j, ∀ hj : j < ([⟨⟨1, 2, 3⟩, 0, ⟨1, 0, 0⟩⟩, ⟨⟨1, 5, 3⟩, 1, ⟨1, 0, 0⟩⟩] :
          List RoadSample).length, j < i →
        sqDistTo 1 3 (([⟨⟨1, 2, 3⟩, 0, ⟨1, 0, 0⟩⟩, ⟨⟨1, 5, 3⟩, 1, ⟨1, 0, 0⟩⟩] :
            List RoadSample)[i]) <
          sqDistTo 1 3 (([⟨⟨1, 2, 3⟩, 0, ⟨1, 0, 0⟩⟩, ⟨⟨1, 5, 3⟩, 1, ⟨1, 0, 0⟩⟩] :
            List RoadSample)[j]))) :=
  ⟨by simp,
    findClosestPoint_first_min [⟨⟨1, 2, 3⟩, 0, ⟨1, 0, 0⟩⟩, ⟨⟨1, 5, 3⟩, 1, ⟨1, 0, 0⟩⟩] 1 3
      (by simp)⟩


end ThePeak
